import Mathlib

/-!
Verification development for the ESI Resolution Engine of the
`vibe-esi-resolver-js` repository.  The definitions below are a shallow
embedding, translated from `src/js/content.js` (class `ESIProcessor`):
the URL resolver, the directive scanner (three phases), the fetch /
replace pipeline with its statistics registry, the tree surgery for
simple includes and try blocks, and the deferred-script executor.

Modelling conventions:
* the DOM is a rose tree `DNode`; every node carries a numeric identity
  `nid` standing for the JavaScript object identity (the `processedElements`
  `Set` and attachment checks use these identities);
* machine integers of the source are `Nat` (no overflow is relevant);
* network requests are an oracle `String -> FetchResult` keyed by the
  resolved URL; the `try/catch` around `fetch` is an explicit `match`,
  so fallible code is total by construction;
* `new URL(raw, base)` of the web platform is modelled by `jsURL`,
  implementing WHATWG resolution for `http(s)` hierarchical bases
  (the only bases the extension meets in practice); a base that does not
  parse as `http(s)://host/...` makes the constructor fail, mirroring
  opaque-path bases such as `about:blank` that throw in the browser.
-/

/-! ## Character and string utilities

`String.prototype.includes` and the two `src` regular expressions of
`content.js` are modelled over `List Char`. -/

/-- The double-quote character, written via its code point. -/
def chQuote : Char := Char.ofNat 34

/-- The apostrophe character, written via its code point. -/
def chApos : Char := Char.ofNat 39

/-- Is the character one of the two quote characters accepted by the
`src=["']` part of the include regular expressions? -/
def isQuoteCh (c : Char) : Bool := c == chQuote || c == chApos

/-- Does `hay` start with `needle`?  (List-level `startsWith`.) -/
def startsList (needle hay : List Char) : Bool :=
  match needle, hay with
  | [], _ => true
  | _ :: _, [] => false
  | a :: as, b :: bs => a == b && startsList as bs

/-- Does `needle` occur as a contiguous subsequence of `hay`?  Models
`String.prototype.includes`. -/
def containsSeq (needle : List Char) : List Char → Bool
  | [] => needle.isEmpty
  | c :: rest => startsList needle (c :: rest) || containsSeq needle rest

/-- `hay.includes(needle)` of JavaScript. -/
def strIncludes (hay needle : String) : Bool := containsSeq needle.data hay.data

/-- `s.startsWith(p)` of JavaScript. -/
def strStarts (s p : String) : Bool := startsList p.data s.data

/-- The characters `src=`. -/
def srcEqLit : List Char := 's' :: 'r' :: 'c' :: '=' :: []

/-- One attempt of the regular expression `src=["']([^"']+)["']` at the
head of `l`: literal `src=`, a quote, a non-empty greedy run of
non-quote characters (the captured group), and a closing quote. -/
def matchSrcAt (l : List Char) : Option String :=
  if startsList srcEqLit l then
    match l.drop 4 with
    | q :: rest =>
      if isQuoteCh q then
        let cap := rest.takeWhile (fun c => !(isQuoteCh c))
        let rest2 := rest.dropWhile (fun c => !(isQuoteCh c))
        if cap.isEmpty then none
        else
          match rest2 with
          | q2 :: _ => if isQuoteCh q2 then some (String.mk cap) else none
          | [] => none
      else none
    | [] => none
  else none

/-- Leftmost match of `comment.match(/src=["']([^"']+)["']/)`, returning
the captured URL (`content.js` line 358). -/
def matchSrcSimpleAux : List Char → Option String
  | [] => none
  | c :: rest =>
    match matchSrcAt (c :: rest) with
    | some s => some s
    | none => matchSrcSimpleAux rest

/-- String-level wrapper for the simple `src` regular expression. -/
def matchSrcSimple (s : String) : Option String := matchSrcSimpleAux s.data

/-- The characters `<esi:include`. -/
def incLit : List Char :=
  '<' :: 'e' :: 's' :: 'i' :: ':' :: 'i' :: 'n' :: 'c' :: 'l' :: 'u' :: 'd' :: 'e' :: []

/-- The tail of the include regular expression after the gap:
`src=["']([^"']+)["'][^>]*>`.  The final `[^>]*>` succeeds exactly when
the remainder still contains a `>`. -/
def srcAndRest (l : List Char) : Option String :=
  if startsList srcEqLit l then
    match l.drop 4 with
    | q :: rest =>
      if isQuoteCh q then
        let cap := rest.takeWhile (fun c => !(isQuoteCh c))
        let rest2 := rest.dropWhile (fun c => !(isQuoteCh c))
        if cap.isEmpty then none
        else
          match rest2 with
          | q2 :: rest3 =>
            if isQuoteCh q2 && rest3.contains '>' then some (String.mk cap) else none
          | [] => none
      else none
    | [] => none
  else none

/-- Greedy matching of the `[^>]+` gap of
`<esi:include[^>]+src=["']([^"']+)["'][^>]*>`: try the largest gap
first and backtrack to smaller gaps, exactly as the regular-expression
engine does. -/
def tryGaps (l : List Char) : Nat → Option String
  | 0 => none
  | Nat.succ k =>
    let g := Nat.succ k
    if (l.take g).all (fun c => c != '>') then
      match srcAndRest (l.drop g) with
      | some s => some s
      | none => tryGaps l k
    else tryGaps l k

/-- One attempt of the full include regular expression at the head of
`l`. -/
def matchIncAt (l : List Char) : Option String :=
  if startsList incLit l then
    let body := l.drop 12
    tryGaps body ((body.takeWhile (fun c => c != '>')).length)
  else none

/-- Leftmost match of
`comment.match(/<esi:include[^>]+src=["']([^"']+)["'][^>]*>/)`
(`content.js` line 348), returning the captured URL. -/
def matchIncludeSrcAux : List Char → Option String
  | [] => none
  | c :: rest =>
    match matchIncAt (c :: rest) with
    | some s => some s
    | none => matchIncludeSrcAux rest

/-- String-level wrapper for the include regular expression. -/
def matchIncludeSrc (s : String) : Option String := matchIncludeSrcAux s.data

/-! ## URL resolver (`resolveUrl`, `content.js` lines 170-188) -/

/-- The parts of `window.location` read by `resolveUrl`. -/
structure Location where
  protocol : String
  origin : String
  href : String

/-- The regular expression `^https?:\/\//` of rule (a): the raw URL is
already absolute with an `http` or `https` scheme. -/
def modelHttpAbs (u : String) : Bool := strStarts u "http://" || strStarts u "https://"

/-- Prefix of `l` up to and including its last `/` (empty when `l` has
no slash); models `href.substring(0, href.lastIndexOf('/') + 1)`. -/
def upToLastSlash (l : List Char) : List Char :=
  ((l.reverse).dropWhile (fun c => c != '/')).reverse

/-- Split a character list on `/` separators. -/
def splitSlash : List Char → List (List Char)
  | [] => [[]]
  | c :: rest =>
    let r := splitSlash rest
    if c == '/' then [] :: r
    else
      match r with
      | h :: t => (c :: h) :: t
      | [] => [[c]]

/-- One step of the remove-dot-segments output stack. -/
def applySeg (out : List String) (s : String) : List String :=
  if s == "." then out else if s == ".." then out.dropLast else out ++ [s]

/-- Remove-dot-segments over the list of path segments; a final `.` or
`..` keeps the trailing slash, as in the WHATWG URL standard. -/
def normSegsAux : List String → List String → List String
  | out, [] => out
  | out, [last] =>
    if last == "." || last == ".." then (applySeg out last) ++ [""] else out ++ [last]
  | out, s :: rest => normSegsAux (applySeg out s) rest

/-- Concatenate path segments with `/` separators. -/
def joinSlash : List String → String
  | [] => ""
  | [s] => s
  | s :: rest => s ++ "/" ++ joinSlash rest

/-- Normalise an absolute path (starting with `/`) by removing `.` and
`..` segments. -/
def normalizePath (p : String) : String :=
  match splitSlash p.data with
  | [] => p
  | _ :: segs => "/" ++ joinSlash (normSegsAux [] (segs.map String.mk))

/-- Split `host/path` after the scheme into the host and the pathname
(query and fragment stripped from the path, which defaults to `/`). -/
def splitHostPath (rest : List Char) : String × String :=
  let host := rest.takeWhile (fun c => c != '/')
  let path := rest.dropWhile (fun c => c != '/')
  (String.mk host,
   if path.isEmpty then "/"
   else String.mk (path.takeWhile (fun c => c != '?' && c != '#')))

/-- Parse an `http(s)` base URL into scheme, host and pathname; `none`
when the base is not of that hierarchical shape. -/
def parseHttpBase (href : String) : Option (String × String × String) :=
  if strStarts href "https://" then
    let hp := splitHostPath (href.data.drop 8)
    if hp.1 == "" then none else some ("https", hp.1, hp.2)
  else if strStarts href "http://" then
    let hp := splitHostPath (href.data.drop 7)
    if hp.1 == "" then none else some ("http", hp.1, hp.2)
  else none

/-- Does `u` begin with a URL scheme (a letter followed by
letters/digits/`+`/`-`/`.` and a colon)? -/
def schemeRest : List Char → Bool
  | [] => false
  | c :: rest =>
    if c == ':' then true
    else (c.isAlphanum || c == '+' || c == '-' || c == '.') && schemeRest rest

/-- Scheme test for `jsURL`. -/
def hasScheme (u : String) : Bool :=
  match u.data with
  | c :: rest => c.isAlpha && schemeRest rest
  | [] => false

/-- Model of the platform constructor `new URL(u, baseHref).href` for
`http(s)` bases: absolute inputs pass through, protocol-relative inputs
take the base scheme, query/fragment inputs attach to the base path,
and path inputs are merged with the base directory and dot-normalised.
A base that does not parse as `http(s)://host/...` fails, as the real
constructor does for opaque-path bases. -/
def jsURL (u : String) (baseHref : String) : Option String :=
  match parseHttpBase baseHref with
  | none => none
  | some (scheme, host, path) =>
    if hasScheme u then some u
    else if strStarts u "//" then some (scheme ++ ":" ++ u)
    else if strStarts u "?" then some (scheme ++ "://" ++ host ++ path ++ u)
    else if strStarts u "#" then some (scheme ++ "://" ++ host ++ path ++ u)
    else if strStarts u "/" then some (scheme ++ "://" ++ host ++ normalizePath u)
    else
      some (scheme ++ "://" ++ host ++
        normalizePath (String.mk (upToLastSlash path.data) ++ u))

/-- `resolveUrl` (`content.js` lines 170-188): (a) `http(s)`-absolute
URLs unchanged; (b) protocol-relative URLs prefixed with the page
scheme; (c) otherwise `new URL(url, location.href)`; on failure (d) a
leading `/` is prefixed with the page origin, (e) anything else is
appended to the page directory prefix. -/
def resolveUrl (loc : Location) (url : String) : String :=
  if modelHttpAbs url then url
  else if strStarts url "//" then loc.protocol ++ url
  else
    match jsURL url loc.href with
    | some r => r
    | none =>
      if strStarts url "/" then loc.origin ++ url
      else String.mk (upToLastSlash loc.href.data) ++ url

/-! ## DOM model

A rose tree of elements, comments and text nodes.  `nid` is the node's
object identity. -/

/-- A DOM node: element (with tag, attributes, children), comment, or
text.  Attribute values model `getAttribute`; text nodes also stand for
inserted `innerHTML` payloads, which the engine never re-scans. -/
inductive DNode : Type where
  | elem (nid : Nat) (tag : String) (attrs : List (String × String)) (children : List DNode)
  | comment (nid : Nat) (text : String)
  | textNode (nid : Nat) (content : String)

/-- The identity of a node. -/
def nodeId : DNode → Nat
  | DNode.elem nid _ _ _ => nid
  | DNode.comment nid _ => nid
  | DNode.textNode nid _ => nid

mutual
/-- Does a node with identity `i` occur in the tree (the root included)? -/
def nodeOccurs (i : Nat) : DNode → Bool
  | DNode.elem nid _ _ cs => nid == i || listOccurs i cs
  | DNode.comment nid _ => nid == i
  | DNode.textNode nid _ => nid == i
/-- Does a node with identity `i` occur in one of the trees? -/
def listOccurs (i : Nat) : List DNode → Bool
  | [] => false
  | c :: cs => nodeOccurs i c || listOccurs i cs
end

/-- `element.parentNode` is non-null exactly when the node is attached
strictly below the document root. -/
def hasParent (doc : DNode) (i : Nat) : Bool :=
  match doc with
  | DNode.elem _ _ _ cs => listOccurs i cs
  | _ => false

mutual
/-- The subtree rooted at the node with identity `i`, if attached
(a live-node lookup). -/
def findById (i : Nat) : DNode → Option DNode
  | DNode.elem nid tag attrs cs =>
    if nid == i then some (DNode.elem nid tag attrs cs) else findByIdList i cs
  | DNode.comment nid text => if nid == i then some (DNode.comment nid text) else none
  | DNode.textNode nid s => if nid == i then some (DNode.textNode nid s) else none
/-- First subtree rooted at identity `i` among the trees, in document
order. -/
def findByIdList (i : Nat) : List DNode → Option DNode
  | [] => none
  | c :: cs =>
    match findById i c with
    | some n => some n
    | none => findByIdList i cs
end

mutual
/-- All nodes satisfying `p`, in document (preorder) order; models a
static `querySelectorAll` result list. -/
def collectNodes (p : DNode → Bool) : DNode → List DNode
  | DNode.elem nid tag attrs cs =>
    (if p (DNode.elem nid tag attrs cs) then [DNode.elem nid tag attrs cs] else []) ++
      collectNodesList p cs
  | DNode.comment nid text =>
    if p (DNode.comment nid text) then [DNode.comment nid text] else []
  | DNode.textNode nid s =>
    if p (DNode.textNode nid s) then [DNode.textNode nid s] else []
/-- `collectNodes` over a list of trees. -/
def collectNodesList (p : DNode → Bool) : List DNode → List DNode
  | [] => []
  | c :: cs => collectNodes p c ++ collectNodesList p cs
end

mutual
/-- All comment nodes with their text, in document order; models a
`TreeWalker` with `NodeFilter.SHOW_COMMENT`. -/
def commentsOf : DNode → List (Nat × String)
  | DNode.elem _ _ _ cs => commentsOfList cs
  | DNode.comment nid text => [(nid, text)]
  | DNode.textNode _ _ => []
/-- `commentsOf` over a list of trees. -/
def commentsOfList : List DNode → List (Nat × String)
  | [] => []
  | c :: cs => commentsOf c ++ commentsOfList cs
end

mutual
/-- `parentNode.replaceChild(r, target)`: every child position holding
the node with identity `t` is replaced by `r`; the root itself is never
replaced. -/
def replaceNodeById (t : Nat) (r : DNode) : DNode → DNode
  | DNode.elem nid tag attrs cs => DNode.elem nid tag attrs (replaceInList t r cs)
  | n => n
/-- `replaceNodeById` over child lists. -/
def replaceInList (t : Nat) (r : DNode) : List DNode → List DNode
  | [] => []
  | c :: cs => (if nodeId c == t then r else replaceNodeById t r c) :: replaceInList t r cs
end

/-! ## Range surgery for comment try blocks
(`replaceCommentTryBlock`, `content.js` lines 614-656) -/

/-- The closing marker `</esi:try>`. -/
def closeMarker : String := "</esi:try>"

/-- Drop the document-order comment list up to and past the entry with
identity `startId`; models setting `walker.currentNode = startComment`
followed by `walker.nextNode()` steps. -/
def afterId (startId : Nat) : List (Nat × String) → List (Nat × String)
  | [] => []
  | (i, _) :: rest => if i == startId then rest else afterId startId rest

/-- Forward scan from the opening comment for the nearest later comment
whose text contains `</esi:try>`. -/
def findClosingComment (doc : DNode) (startId : Nat) : Option Nat :=
  (((afterId startId (commentsOf doc)).find?
      (fun p => strIncludes p.2 closeMarker)).map Prod.fst)

/-- Identities of the nodes of a child list. -/
def childIds (cs : List DNode) : List Nat := cs.map nodeId

/-- Replace the sibling slice from the node with identity `sid` through
the node with identity `eid` (both inclusive) by the single node `r`;
models `range.setStartBefore`/`setEndAfter`/`deleteContents`/`insertNode`
when the two markers are siblings. -/
def replaceRangeInChildren (sid eid : Nat) (r : DNode) (cs : List DNode) : List DNode :=
  let before := cs.takeWhile (fun n => nodeId n != sid)
  let rest := cs.dropWhile (fun n => nodeId n != sid)
  let after := (rest.dropWhile (fun n => nodeId n != eid)).drop 1
  before ++ r :: after

mutual
/-- Apply the sibling-range replacement at the (unique, in well-formed
documents) element whose children contain both boundary identities. -/
def rangeReplace (sid eid : Nat) (r : DNode) : DNode → DNode
  | DNode.elem nid tag attrs cs =>
    if (childIds cs).contains sid && (childIds cs).contains eid then
      DNode.elem nid tag attrs (replaceRangeInChildren sid eid r cs)
    else DNode.elem nid tag attrs (rangeReplaceList sid eid r cs)
  | n => n
/-- `rangeReplace` over child lists. -/
def rangeReplaceList (sid eid : Nat) (r : DNode) : List DNode → List DNode
  | [] => []
  | c :: cs => rangeReplace sid eid r c :: rangeReplaceList sid eid r cs
end

mutual
/-- Are the two identities children of one common parent element? -/
def areSiblingNodes (sid eid : Nat) : DNode → Bool
  | DNode.elem _ _ _ cs =>
    ((childIds cs).contains sid && (childIds cs).contains eid) ||
      areSiblingNodesList sid eid cs
  | _ => false
/-- `areSiblingNodes` over child lists. -/
def areSiblingNodesList (sid eid : Nat) : List DNode → Bool
  | [] => false
  | c :: cs => areSiblingNodes sid eid c || areSiblingNodesList sid eid cs
end

/-- `replaceCommentTryBlock` (`content.js` lines 614-656): forward-scan
for the nearest closing-marker comment; when found, delete the range
from the opening through the closing comment and insert the replacement
(the embedding performs the DOM `Range` surgery for marker pairs that
share a parent, the configuration the comment syntax produces; for a
cross-parent pair, whose `Range` semantics would split partially
contained ancestors, the model degrades to replacing the opening
comment); when no closing marker exists, fall back to replacing only
the opening comment if it still has a parent. -/
def replaceCommentTryBlock (doc : DNode) (startId : Nat) (r : DNode) : DNode :=
  match findClosingComment doc startId with
  | some eid =>
    if areSiblingNodes startId eid doc then rangeReplace startId eid r doc
    else replaceNodeById startId r doc
  | none =>
    if hasParent doc startId then replaceNodeById startId r doc else doc

/-! ## Statistics, fragments and engine state -/

/-- The outcome record of one directive (`stats.fragments` entries). -/
structure Fragment where
  id : Nat
  url : String
  resolvedUrl : String
  success : Bool
  error : Option String
  timestamp : Nat

/-- The aggregate `this.stats`. -/
structure Stats where
  total : Nat
  successful : Nat
  failed : Nat
  fragments : List Fragment

/-- The freshly constructed statistics object. -/
def emptyStats : Stats := ⟨0, 0, 0, []⟩

/-- The mutable engine-owned state of `ESIProcessor`: statistics, the
fragment-id counter, the `processedElements` identity set, plus two
modelling devices — `nextNode`, the allocator for identities of nodes
the engine creates, and `now`, the fixed `Date.now()` reading. -/
structure EngineState where
  stats : Stats
  fragmentCounter : Nat
  processed : List Nat
  nextNode : Nat
  now : Nat

/-- The result of `fetch` as seen through the `try/catch` of
`fetchAndReplaceESI`: a 2xx body, a non-2xx status (thrown as
`HTTP <status>: <statusText>`), or a transport failure. -/
inductive FetchResult : Type where
  | ok (content : String)
  | httpError (status : Nat) (statusText : String)
  | transportError (message : String)
deriving DecidableEq

/-- Did the fetch succeed? -/
def FetchResult.isOk : FetchResult → Bool
  | FetchResult.ok _ => true
  | _ => false

/-- The `error.message` carried into the catch block. -/
def fetchErrorMessage : FetchResult → String
  | FetchResult.ok _ => ""
  | FetchResult.httpError status statusText =>
    "HTTP " ++ toString status ++ ": " ++ statusText
  | FetchResult.transportError message => message

/-- `esi-fragment-<id>`, the marker element id. -/
def fragMarkerId (fid : Nat) : String := "esi-fragment-" ++ toString fid

/-- The replacement container built on fetch success (`content.js`
lines 442-461): a `div` with the marker id and data attributes, holding
the diagnostic marker comment and a wrapper `div` with the (possibly
script-stripped) fetched markup. -/
def mkContainer (st : EngineState) (fid : Nat) (url resolved content : String) :
    DNode × EngineState :=
  (DNode.elem st.nextNode "div"
      [("id", fragMarkerId fid), ("data-esi-fragment", "true"),
       ("data-esi-url", url), ("data-esi-resolved-url", resolved)]
      [DNode.comment (st.nextNode + 1) ("ESI Fragment " ++ toString fid ++ ": " ++ url),
       DNode.elem (st.nextNode + 2) "div" [] [DNode.textNode (st.nextNode + 3) content]],
   { st with nextNode := st.nextNode + 4 })

/-- The `innerHTML` template of the inline error panel (`content.js`
lines 490-494). -/
def errorPanelHtml (fid : Nat) (url msg : String) : String :=
  "\n        <!-- ESI Fragment " ++ toString fid ++ ": " ++ url ++
    " (FAILED) -->\n        <strong>ESI Error:</strong> Failed to load " ++ url ++
    "<br>\n        <small>" ++ msg ++ "</small>\n      "

/-- The inline error panel built on fetch failure (`content.js` lines
483-494). -/
def mkErrorDiv (st : EngineState) (fid : Nat) (url resolved msg : String) :
    DNode × EngineState :=
  (DNode.elem st.nextNode "div"
      [("id", fragMarkerId fid), ("class", "esi-error"), ("data-esi-fragment", "true"),
       ("data-esi-url", url), ("data-esi-resolved-url", resolved)]
      [DNode.textNode (st.nextNode + 1) (errorPanelHtml fid url msg)],
   { st with nextNode := st.nextNode + 2 })

/-- Does the original comment text carry the try-open marker?  Models
`originalComment && originalComment.includes('<esi:try>')`. -/
def commentHasTryMarker : Option String → Bool
  | some c => strIncludes c "<esi:try>"
  | none => false

/-- `replaceESIElement` (`content.js` lines 515-543): no-op when the
anchor has no parent; try blocks anchored on a comment go through the
range surgery, try blocks anchored on an element replace the whole
container; everything else is a simple in-place replacement. -/
def replaceESIElement (doc : DNode) (anchorId : Nat) (anchorIsComment : Bool)
    (replacement : DNode) (originalComment : Option String) (isTryBlock : Bool) : DNode :=
  if hasParent doc anchorId = false then doc
  else if isTryBlock || commentHasTryMarker originalComment then
    if anchorIsComment then replaceCommentTryBlock doc anchorId replacement
    else replaceNodeById anchorId replacement doc
  else replaceNodeById anchorId replacement doc

/-- `fetchAndReplaceESI` (`content.js` lines 366-513).  Early return
when the anchor is already detached; otherwise `total` and the fragment
counter are bumped, the URL is resolved and fetched, and either the
content container or the error panel replaces the anchor while exactly
one `Fragment` is appended. -/
def fetchAndReplaceESI (oracle : String → FetchResult) (loc : Location)
    (anchorId : Nat) (anchorIsComment : Bool) (url : String)
    (originalComment : Option String) (isTryBlock : Bool)
    (doc : DNode) (st : EngineState) : DNode × EngineState :=
  if hasParent doc anchorId = false then (doc, st)
  else
    let st1 := { st with
      stats := { st.stats with total := st.stats.total + 1 },
      fragmentCounter := st.fragmentCounter + 1 }
    let fid := st1.fragmentCounter
    let resolved := resolveUrl loc url
    match oracle resolved with
    | FetchResult.ok content =>
      let built := mkContainer st1 fid url resolved content
      let doc2 := replaceESIElement doc anchorId anchorIsComment built.1
        originalComment isTryBlock
      let st2 := built.2
      (doc2,
       { st2 with stats := { st2.stats with
           successful := st2.stats.successful + 1,
           fragments := st2.stats.fragments ++
             [⟨fid, url, resolved, true, none, st2.now⟩] } })
    | failure =>
      let msg := fetchErrorMessage failure
      let built := mkErrorDiv st1 fid url (resolveUrl loc url) msg
      let doc2 :=
        if hasParent doc anchorId then
          replaceESIElement doc anchorId anchorIsComment built.1
            originalComment isTryBlock
        else doc
      let st2 := built.2
      (doc2,
       { st2 with stats := { st2.stats with
           failed := st2.stats.failed + 1,
           fragments := st2.stats.fragments ++
             [⟨fid, url, resolveUrl loc url, false, some msg, st2.now⟩] } })

/-! ## Directive scanner and processing phases
(`processESI` and the three phase methods, `content.js` lines 190-364) -/

/-- Attribute lookup, `element.getAttribute(name)`. -/
def getAttr (n : DNode) (name : String) : Option String :=
  match n with
  | DNode.elem _ _ attrs _ => attrs.lookup name
  | _ => none

/-- ASCII lowercase of a string, character by character; models
`tagName.toLowerCase()` for the ASCII tag names involved. -/
def lowerStr (s : String) : String := String.mk (s.data.map Char.toLower)

/-- Is the node a try container?  The HTML parser lowercases foreign
tag names and CSS type selectors match case-insensitively, so the two
selectors `esi\:try, ESI\:TRY` both match tags whose lowercase form is
`esi:try`. -/
def isTryTag (n : DNode) : Bool :=
  match n with
  | DNode.elem _ tag _ _ => lowerStr tag == "esi:try"
  | _ => false

/-- Case-insensitive type-selector match against one selector name. -/
def selectorMatches (sel : String) (n : DNode) : Bool :=
  match n with
  | DNode.elem _ tag _ _ => lowerStr tag == sel
  | _ => false

/-- Is the node an include tag (any of the four selector variants)? -/
def isIncludeTag (n : DNode) : Bool :=
  selectorMatches "esi:include" n || selectorMatches "esi-include" n

/-- `tryBlock.querySelector('esi\:include, ESI\:INCLUDE, esi-include,
ESI-INCLUDE')`: the first include descendant of the container, in
document order (the container itself excluded). -/
def firstIncludeDesc (n : DNode) : Option DNode :=
  match n with
  | DNode.elem _ _ _ cs => (collectNodesList isIncludeTag cs).head?
  | _ => none

mutual
/-- `isInsideESITryBlock`: does some try-container element properly
contain the node with identity `i`? -/
def hasTryAncestor (i : Nat) : DNode → Bool
  | DNode.elem nid tag attrs cs =>
    (isTryTag (DNode.elem nid tag attrs cs) && listOccurs i cs) ||
      hasTryAncestorList i cs
  | _ => false
/-- `hasTryAncestor` over child lists. -/
def hasTryAncestorList (i : Nat) : List DNode → Bool
  | [] => false
  | c :: cs => hasTryAncestor i c || hasTryAncestorList i cs
end

/-- Snapshot of `document.querySelectorAll('esi\:try, ESI\:TRY')`. -/
def collectTryBlocks (doc : DNode) : List DNode := collectNodes isTryTag doc

/-- One iteration of the try-block loop (`content.js` lines 220-239):
skip already-processed containers, locate the first nested include with
a non-empty `src`, mark both identities processed and run the
fetch-and-replace as a try block.  The container's subtree is looked up
live in the current document, falling back to the snapshot when
detached. -/
def tryStep (oracle : String → FetchResult) (loc : Location)
    (acc : DNode × EngineState) (b : DNode) : DNode × EngineState :=
  if acc.2.processed.contains (nodeId b) then acc
  else
    let live := (findById (nodeId b) acc.1).getD b
    match firstIncludeDesc live with
    | some inc =>
      match getAttr inc "src" with
      | some src =>
        if src == "" then acc
        else
          let st := { acc.2 with
            processed := nodeId inc :: nodeId b :: acc.2.processed }
          fetchAndReplaceESI oracle loc (nodeId b) false src none true acc.1 st
      | none => acc
    | none => acc

/-- Phase 1, `processESITryBlocks` (`content.js` lines 214-240). -/
def processESITryBlocks (oracle : String → FetchResult) (loc : Location)
    (doc : DNode) (st : EngineState) : DNode × EngineState :=
  (collectTryBlocks doc).foldl (tryStep oracle loc) (doc, st)

/-- Snapshot of the standalone-include list (`content.js` lines
245-267): the four selectors in order, each contributing its
document-order matches that are neither already processed nor inside a
try container (case-insensitive selectors make the third and fourth
lists repeat the first two; duplicates are skipped later by the
processed-set check). -/
def collectStandalone (doc : DNode) (processed : List Nat) : List DNode :=
  let pick := fun sel =>
    (collectNodes (selectorMatches sel) doc).filter
      (fun n => !(processed.contains (nodeId n)) && !(hasTryAncestor (nodeId n) doc))
  pick "esi:include" ++ pick "esi-include" ++ pick "esi:include" ++ pick "esi-include"

/-- One iteration of the standalone loop (`content.js` lines 271-282):
skip processed tags, read `src`, mark processed and fetch-and-replace. -/
def standaloneStep (oracle : String → FetchResult) (loc : Location)
    (acc : DNode × EngineState) (tag : DNode) : DNode × EngineState :=
  if acc.2.processed.contains (nodeId tag) then acc
  else
    let live := (findById (nodeId tag) acc.1).getD tag
    match getAttr live "src" with
    | some src =>
      if src == "" then acc
      else
        let st := { acc.2 with processed := nodeId tag :: acc.2.processed }
        fetchAndReplaceESI oracle loc (nodeId tag) false src none false acc.1 st
    | none => acc

/-- Phase 2, `processStandaloneESITags` (`content.js` lines 242-283). -/
def processStandaloneESITags (oracle : String → FetchResult) (loc : Location)
    (doc : DNode) (st : EngineState) : DNode × EngineState :=
  (collectStandalone doc st.processed).foldl (standaloneStep oracle loc) (doc, st)

/-- Is the comment text an ESI comment (`content.js` line 323)? -/
def isESICommentText (t : String) : Bool :=
  strIncludes t "<esi:include" || strIncludes t "<esi:try>"

/-- Snapshot of the unprocessed ESI comment list (`content.js` lines
307-327). -/
def collectESIComments (doc : DNode) (processed : List Nat) : List (Nat × String) :=
  (commentsOf doc).filter
    (fun p => !(processed.contains p.1) && isESICommentText p.2)

/-- `processESIComment` (`content.js` lines 342-364): a try-marker
comment is fetched as a try block when the include regular expression
matches (and silently left alone otherwise); any other ESI comment is
fetched as a simple include when the bare `src` regular expression
matches. -/
def processESIComment (oracle : String → FetchResult) (loc : Location)
    (doc : DNode) (st : EngineState) (cid : Nat) (text : String) :
    DNode × EngineState :=
  if strIncludes text "<esi:try>" then
    match matchIncludeSrc text with
    | some url => fetchAndReplaceESI oracle loc cid true url (some text) true doc st
    | none => (doc, st)
  else
    match matchSrcSimple text with
    | some url => fetchAndReplaceESI oracle loc cid true url none false doc st
    | none => (doc, st)

/-- One iteration of the comment loop (`content.js` lines 331-339):
skip processed comments, mark processed, then process. -/
def commentStep (oracle : String → FetchResult) (loc : Location)
    (acc : DNode × EngineState) (p : Nat × String) : DNode × EngineState :=
  if acc.2.processed.contains p.1 then acc
  else
    let st := { acc.2 with processed := p.1 :: acc.2.processed }
    processESIComment oracle loc acc.1 st p.1 p.2

/-- Phase 3, `processESIComments` (`content.js` lines 299-340). -/
def processESIComments (oracle : String → FetchResult) (loc : Location)
    (doc : DNode) (st : EngineState) : DNode × EngineState :=
  (collectESIComments doc st.processed).foldl (commentStep oracle loc) (doc, st)

/-- `processESI` (`content.js` lines 190-212): when enabled, clear the
processed set for this run and execute the three phases in order
(`saveStats` writes to the external store and has no engine-state
effect in the model). -/
def processESI (oracle : String → FetchResult) (loc : Location) (enabled : Bool)
    (doc : DNode) (st : EngineState) : DNode × EngineState :=
  if !enabled then (doc, st)
  else
    let st0 := { st with processed := [] }
    let r1 := processESITryBlocks oracle loc doc st0
    let r2 := processStandaloneESITags oracle loc r1.1 r1.2
    processESIComments oracle loc r2.1 r2.2

/-! ## Statistics registry operations
(`loadStats` and `clearStats`, `content.js` lines 118-151) -/

/-- `Math.max(...fragments.map(f => f.id || 0), 0)`: the seed of the
fragment counter from restored history. -/
def seedCounter (frs : List Fragment) : Nat :=
  frs.foldl (fun m f => max m f.id) 0

/-- `loadStats` (`content.js` lines 118-130): when the store holds
statistics for the page key, adopt them and seed the fragment counter
with the maximum restored id; otherwise keep the fresh state. -/
def loadStats (stored : Option Stats) (st : EngineState) : EngineState :=
  match stored with
  | some s => { st with stats := s, fragmentCounter := seedCounter s.fragments }
  | none => st

/-- `clearStats` (`content.js` lines 140-151): zero the statistics and
the counter and empty the processed set. -/
def clearStatsOp (st : EngineState) : EngineState :=
  { st with stats := emptyStats, fragmentCounter := 0, processed := [] }

/-! ## Deferred script execution
(`extractAndExecuteScripts` / `executeScript`, `content.js` lines
545-612).  A deferred script is either an external reference together
with whether its load succeeds, or an inline script.  The engine walks
the list sequentially, appending each script to the container and, for
external scripts, awaiting the load; an external load failure rejects
the awaited promise inside the loop, which aborts the remaining
scripts.  The executed list is what reaches the container. -/

/-- A deferred script descriptor. -/
inductive ScriptEl : Type where
  | external (src : String) (loads : Bool)
  | inlineScript (code : String)
deriving DecidableEq

/-- Does awaiting this script reject?  Only a failing external load
does: the `try/catch` of `executeScript` guards the synchronous set-up,
not the returned promise, and inline scripts are appended without
awaiting. -/
def scriptAborts : ScriptEl → Bool
  | ScriptEl.external _ loads => !loads
  | ScriptEl.inlineScript _ => false

/-- The sequential deferred-script loop (`content.js` lines 566-570):
each script is appended in order; a failing external load is itself
appended (the element enters the container before `onerror` fires) but
its rejection ends the loop. -/
def runDeferredScripts : List ScriptEl → List ScriptEl
  | [] => []
  | s :: rest => if scriptAborts s then [s] else s :: runDeferredScripts rest

/-! ## Helper relations and lemmas -/

/-- State evolution of one engine operation: the fragment history is
append-only, newly appended fragments carry the consecutive ids
`counter+1, counter+2, ...`, and `total` and `successful + failed` each
grow by the number of appended fragments. -/
def Extends (st st' : EngineState) : Prop :=
  ∃ ext : List Fragment,
    st'.stats.fragments = st.stats.fragments ++ ext ∧
    ext.map Fragment.id = List.range' (st.fragmentCounter + 1) ext.length ∧
    st'.fragmentCounter = st.fragmentCounter + ext.length ∧
    st'.stats.total = st.stats.total + ext.length ∧
    st'.stats.successful + st'.stats.failed
      = st.stats.successful + st.stats.failed + ext.length

theorem extends_refl (st : EngineState) : Extends st st :=
  ⟨[], by simp, by simp, by simp, by simp, by simp⟩

theorem extends_of_same (st st' : EngineState)
    (h1 : st'.stats = st.stats) (h2 : st'.fragmentCounter = st.fragmentCounter) :
    Extends st st' :=
  ⟨[], by simp [h1], by simp, by simp [h2], by simp [h1], by simp [h1]⟩

theorem extends_trans {a b c : EngineState} (h1 : Extends a b) (h2 : Extends b c) :
    Extends a c := by
  obtain ⟨e1, f1, i1, c1, t1, s1⟩ := h1
  obtain ⟨e2, f2, i2, c2, t2, s2⟩ := h2
  refine ⟨e1 ++ e2, ?_, ?_, ?_, ?_, ?_⟩
  · rw [f2, f1, List.append_assoc]
  · rw [List.map_append, i1, i2, c1, List.length_append]
    rw [Nat.add_assoc, Nat.add_comm e1.length 1, ← Nat.add_assoc]
    rw [List.range'_append_1]
    rw [Nat.add_comm e2.length e1.length]
  · rw [c2, c1, List.length_append, Nat.add_assoc]
  · rw [t2, t1, List.length_append, Nat.add_assoc]
  · rw [s2, s1, List.length_append, Nat.add_assoc]

theorem fetch_extends (oracle : String → FetchResult) (loc : Location)
    (aid : Nat) (aisc : Bool) (url : String) (oc : Option String) (itb : Bool)
    (doc : DNode) (st : EngineState) :
    Extends st (fetchAndReplaceESI oracle loc aid aisc url oc itb doc st).2 := by
  unfold fetchAndReplaceESI
  dsimp only
  split
  · exact extends_refl st
  · cases ho : oracle (resolveUrl loc url) with
    | ok content =>
      exact ⟨[⟨st.fragmentCounter + 1, url, resolveUrl loc url, true, none, st.now⟩],
        by simp [mkContainer], by simp, by simp [mkContainer], by simp [mkContainer],
        by simp [mkContainer]; omega⟩
    | httpError status statusText =>
      exact ⟨[⟨st.fragmentCounter + 1, url, resolveUrl loc url, false,
          some (fetchErrorMessage (FetchResult.httpError status statusText)), st.now⟩],
        by simp [mkErrorDiv], by simp, by simp [mkErrorDiv], by simp [mkErrorDiv],
        by simp [mkErrorDiv]; omega⟩
    | transportError message =>
      exact ⟨[⟨st.fragmentCounter + 1, url, resolveUrl loc url, false,
          some (fetchErrorMessage (FetchResult.transportError message)), st.now⟩],
        by simp [mkErrorDiv], by simp, by simp [mkErrorDiv], by simp [mkErrorDiv],
        by simp [mkErrorDiv]; omega⟩

theorem foldl_extends {α : Type} (step : (DNode × EngineState) → α → (DNode × EngineState))
    (h : ∀ acc a, Extends acc.2 (step acc a).2) :
    ∀ (l : List α) (acc : DNode × EngineState), Extends acc.2 (l.foldl step acc).2 := by
  intro l
  induction l with
  | nil => intro acc; exact extends_refl _
  | cons a rest ih =>
    intro acc
    exact extends_trans (h acc a) (ih (step acc a))

theorem tryStep_extends (oracle : String → FetchResult) (loc : Location)
    (acc : DNode × EngineState) (b : DNode) :
    Extends acc.2 (tryStep oracle loc acc b).2 := by
  unfold tryStep
  dsimp only
  split
  · exact extends_refl _
  · split
    · split
      · split
        · exact extends_refl _
        · exact extends_trans (extends_of_same _ _ rfl rfl) (fetch_extends ..)
      · exact extends_refl _
    · exact extends_refl _

theorem standaloneStep_extends (oracle : String → FetchResult) (loc : Location)
    (acc : DNode × EngineState) (tag : DNode) :
    Extends acc.2 (standaloneStep oracle loc acc tag).2 := by
  unfold standaloneStep
  dsimp only
  split
  · exact extends_refl _
  · split
    · split
      · exact extends_refl _
      · exact extends_trans (extends_of_same _ _ rfl rfl) (fetch_extends ..)
    · exact extends_refl _

theorem processESIComment_extends (oracle : String → FetchResult) (loc : Location)
    (doc : DNode) (st : EngineState) (cid : Nat) (text : String) :
    Extends st (processESIComment oracle loc doc st cid text).2 := by
  unfold processESIComment
  split
  · split
    · exact fetch_extends ..
    · exact extends_refl _
  · split
    · exact fetch_extends ..
    · exact extends_refl _

theorem commentStep_extends (oracle : String → FetchResult) (loc : Location)
    (acc : DNode × EngineState) (p : Nat × String) :
    Extends acc.2 (commentStep oracle loc acc p).2 := by
  unfold commentStep
  split
  · exact extends_refl _
  · exact extends_trans (extends_of_same _ _ rfl rfl) (processESIComment_extends ..)

theorem tryPhase_extends (oracle : String → FetchResult) (loc : Location)
    (doc : DNode) (st : EngineState) :
    Extends st (processESITryBlocks oracle loc doc st).2 := by
  unfold processESITryBlocks
  exact foldl_extends _ (tryStep_extends oracle loc) (collectTryBlocks doc) (doc, st)

theorem standalonePhase_extends (oracle : String → FetchResult) (loc : Location)
    (doc : DNode) (st : EngineState) :
    Extends st (processStandaloneESITags oracle loc doc st).2 := by
  unfold processStandaloneESITags
  exact foldl_extends _ (standaloneStep_extends oracle loc) _ (doc, st)

theorem commentPhase_extends (oracle : String → FetchResult) (loc : Location)
    (doc : DNode) (st : EngineState) :
    Extends st (processESIComments oracle loc doc st).2 := by
  unfold processESIComments
  exact foldl_extends _ (commentStep_extends oracle loc) _ (doc, st)

theorem processESI_extends (oracle : String → FetchResult) (loc : Location)
    (enabled : Bool) (doc : DNode) (st : EngineState) :
    Extends { st with processed := [] } (processESI oracle loc enabled doc st).2 ∨
    (processESI oracle loc enabled doc st).2 = st := by
  unfold processESI
  split
  · exact Or.inr rfl
  · dsimp only
    exact Or.inl (extends_trans
      (tryPhase_extends oracle loc doc { st with processed := [] })
      (extends_trans (standalonePhase_extends oracle loc _ _)
        (commentPhase_extends oracle loc _ _)))

theorem processESI_extends_any (oracle : String → FetchResult) (loc : Location)
    (enabled : Bool) (doc : DNode) (st : EngineState) :
    Extends st (processESI oracle loc enabled doc st).2 := by
  rcases processESI_extends oracle loc enabled doc st with h | h
  · exact extends_trans (extends_of_same _ _ rfl rfl) h
  · rw [h]; exact extends_refl st

/-- Per-directive counter effect of an attached fetch-and-replace:
`total` is bumped exactly once and exactly one of `successful` or
`failed` is bumped with it. -/
theorem fetch_counters (oracle : String → FetchResult) (loc : Location)
    (aid : Nat) (aisc : Bool) (url : String) (oc : Option String) (itb : Bool)
    (doc : DNode) (st : EngineState) (h : hasParent doc aid = true) :
    (fetchAndReplaceESI oracle loc aid aisc url oc itb doc st).2.stats.total
        = st.stats.total + 1 ∧
      (((fetchAndReplaceESI oracle loc aid aisc url oc itb doc st).2.stats.successful
            = st.stats.successful + 1 ∧
          (fetchAndReplaceESI oracle loc aid aisc url oc itb doc st).2.stats.failed
            = st.stats.failed) ∨
        ((fetchAndReplaceESI oracle loc aid aisc url oc itb doc st).2.stats.successful
            = st.stats.successful ∧
          (fetchAndReplaceESI oracle loc aid aisc url oc itb doc st).2.stats.failed
            = st.stats.failed + 1)) := by
  unfold fetchAndReplaceESI
  dsimp only
  rw [h]
  cases ho : oracle (resolveUrl loc url) with
  | ok content => exact ⟨by simp [mkContainer], Or.inl ⟨by simp [mkContainer], by simp [mkContainer]⟩⟩
  | httpError status statusText =>
    exact ⟨by simp [mkErrorDiv], Or.inr ⟨by simp [mkErrorDiv], by simp [mkErrorDiv]⟩⟩
  | transportError message =>
    exact ⟨by simp [mkErrorDiv], Or.inr ⟨by simp [mkErrorDiv], by simp [mkErrorDiv]⟩⟩

/-- C1: after every completed processing pass the aggregate satisfies
`total = successful + failed`; per directive, an attached
fetch-and-replace increments `total` exactly once and exactly one of
`successful` or `failed` alongside it. -/
theorem c1_stats_invariant (oracle : String → FetchResult) (loc : Location)
    (enabled : Bool) (doc : DNode) (st : EngineState)
    (h : st.stats.total = st.stats.successful + st.stats.failed) :
    ((processESI oracle loc enabled doc st).2.stats.total
        = (processESI oracle loc enabled doc st).2.stats.successful
          + (processESI oracle loc enabled doc st).2.stats.failed) ∧
      (∀ (aid : Nat) (aisc : Bool) (url : String) (oc : Option String) (itb : Bool)
          (doc2 : DNode) (st2 : EngineState), hasParent doc2 aid = true →
        (fetchAndReplaceESI oracle loc aid aisc url oc itb doc2 st2).2.stats.total
            = st2.stats.total + 1 ∧
          (((fetchAndReplaceESI oracle loc aid aisc url oc itb doc2 st2).2.stats.successful
                = st2.stats.successful + 1 ∧
              (fetchAndReplaceESI oracle loc aid aisc url oc itb doc2 st2).2.stats.failed
                = st2.stats.failed) ∨
            ((fetchAndReplaceESI oracle loc aid aisc url oc itb doc2 st2).2.stats.successful
                = st2.stats.successful ∧
              (fetchAndReplaceESI oracle loc aid aisc url oc itb doc2 st2).2.stats.failed
                = st2.stats.failed + 1))) := by
  constructor
  · obtain ⟨ext, _, _, _, ht, hs⟩ := processESI_extends_any oracle loc enabled doc st
    omega
  · intro aid aisc url oc itb doc2 st2 hp
    exact fetch_counters oracle loc aid aisc url oc itb doc2 st2 hp

/-- Concrete page location used by the closed scenarios. -/
def pageLoc : Location := ⟨"https:", "https://h", "https://h/a/b/"⟩

/-- Oracle answering every request with a 2xx body. -/
def anyOkOracle : String → FetchResult := fun _ => FetchResult.ok "AA"

/-- A document with no directives at all. -/
def emptyDoc : DNode := DNode.elem 0 "html" [] []

/-- A fresh engine state. -/
def freshState : EngineState := ⟨emptyStats, 0, [], 100, 7⟩

/-- Witness for C1 at a concrete input. -/
theorem c1_stats_invariant_witness :
    freshState.stats.total = freshState.stats.successful + freshState.stats.failed ∧
      (processESI anyOkOracle pageLoc true emptyDoc freshState).2.stats.total
        = (processESI anyOkOracle pageLoc true emptyDoc freshState).2.stats.successful
          + (processESI anyOkOracle pageLoc true emptyDoc freshState).2.stats.failed :=
  ⟨by decide, (c1_stats_invariant anyOkOracle pageLoc true emptyDoc freshState (by decide)).1⟩

/-- C6: the fragment-id counter is seeded from the maximum id of the
restored history (0, hence first id 1, when nothing is restored); a
pass appends fragments with the consecutive, strictly increasing ids
`seed+1, seed+2, ...`; after `clearStats` a pass produces ids
`1, 2, ...`, and the run is a function of the document alone, so the
same document reproduces the same sequence. -/
theorem c6_fragment_id_sequence (oracle : String → FetchResult) (loc : Location)
    (enabled : Bool) (doc : DNode) (st : EngineState) (s : Stats) :
    (loadStats (some s) st).fragmentCounter = seedCounter s.fragments ∧
      (loadStats none st).fragmentCounter = st.fragmentCounter ∧
      seedCounter [] = 0 ∧
      (∃ ext : List Fragment,
        (processESI oracle loc enabled doc (loadStats (some s) st)).2.stats.fragments
            = s.fragments ++ ext ∧
          ext.map Fragment.id = List.range' (seedCounter s.fragments + 1) ext.length ∧
          List.Pairwise (· < ·) (ext.map Fragment.id)) ∧
      (∃ ext : List Fragment,
        (processESI oracle loc enabled doc (clearStatsOp st)).2.stats.fragments = ext ∧
          ext.map Fragment.id = List.range' 1 ext.length) ∧
      (∀ (s2 : Stats) (c2 : Nat) (p2 : List Nat),
        processESI oracle loc enabled doc (clearStatsOp ⟨s2, c2, p2, st.nextNode, st.now⟩)
          = processESI oracle loc enabled doc (clearStatsOp st)) := by
  refine ⟨by simp [loadStats], rfl, rfl, ?_, ?_, ?_⟩
  · obtain ⟨ext, hf, hi, _, _, _⟩ :=
      processESI_extends_any oracle loc enabled doc (loadStats (some s) st)
    refine ⟨ext, ?_, ?_, ?_⟩
    · simpa [loadStats] using hf
    · simpa [loadStats] using hi
    · rw [hi]
      exact List.pairwise_lt_range' _ _
  · obtain ⟨ext, hf, hi, _, _, _⟩ :=
      processESI_extends_any oracle loc enabled doc (clearStatsOp st)
    refine ⟨ext, ?_, ?_⟩
    · simpa [clearStatsOp, emptyStats] using hf
    · simpa [clearStatsOp] using hi
  · intro s2 c2 p2
    rfl

/-- An engine state whose processed set is non-empty. -/
def carriedState : EngineState := ⟨emptyStats, 0, [5], 100, 7⟩

/-- C7 counterexample: starting a new processing pass empties the
processed set (`processESI` begins with `processedElements.clear()`),
so the set is not preserved by a pass, contrary to the claim that only
an explicit stats clear or navigation empties it. -/
theorem c7_counterexample :
    carriedState.processed = [5] ∧
      (processESI anyOkOracle pageLoc true emptyDoc carriedState).2.processed = [] ∧
      ¬((processESI anyOkOracle pageLoc true emptyDoc carriedState).2.processed
          = carriedState.processed) := by
  refine ⟨?_, ?_, ?_⟩ <;> decide

/-- C7 amended: the processed set is emptied by `clearStats`, by
navigation (a new page instance starts from a fresh state), and also at
the start of every enabled processing pass; a disabled pass changes
nothing. -/
theorem c7_processed_set_lifecycle (oracle : String → FetchResult) (loc : Location)
    (doc : DNode) (st : EngineState) :
    (clearStatsOp st).processed = [] ∧
      processESI oracle loc true doc st
        = processESI oracle loc true doc { st with processed := [] } ∧
      processESI oracle loc false doc st = (doc, st) := by
  exact ⟨rfl, rfl, rfl⟩

/-- The opening comment of the racy document: a comment-form try block
whose include matches the include regular expression. -/
def tryCommentText : String := "<esi:try> <esi:include x src=\x22/a\x22>"

/-- A later comment-form simple include, located between the try
markers. -/
def includeCommentText : String := "<esi:include y src=\x22/b\x22>"

/-- The closing-marker comment. -/
def closeCommentText : String := "x</esi:try>"

/-- A document in which the comment try block's range surgery deletes
the later include comment before that directive is fetched. -/
def racyDoc : DNode :=
  DNode.elem 0 "html" []
    [DNode.elem 1 "body" []
      [DNode.comment 2 tryCommentText, DNode.comment 3 includeCommentText,
       DNode.comment 4 closeCommentText]]

/-- C2 counterexample: the scanner discovers two comment directives in
`racyDoc` (both match their regular expressions), yet the pass
increments `total` only once — the second directive's anchor is already
detached when its fetch-and-replace begins, and the early parent check
returns before `total++`. -/
theorem c2_counterexample :
    (collectESIComments racyDoc []).length = 2 ∧
      (matchIncludeSrc tryCommentText).isSome = true ∧
      (matchSrcSimple includeCommentText).isSome = true ∧
      (processESI anyOkOracle pageLoc true racyDoc freshState).2.stats.total = 1 ∧
      ¬((processESI anyOkOracle pageLoc true racyDoc freshState).2.stats.total = 2) := by
  refine ⟨?_, ?_, ?_, ?_, ?_⟩ <;> decide

/-- C2 amended: a directive whose anchor is still attached when its
fetch-and-replace begins increments `total` exactly once, whatever the
outcome; a directive whose anchor is already detached at entry is
skipped without touching the state at all. -/
theorem c2_total_increment (oracle : String → FetchResult) (loc : Location)
    (aid : Nat) (aisc : Bool) (url : String) (oc : Option String) (itb : Bool)
    (doc : DNode) (st : EngineState) :
    (hasParent doc aid = true →
      (fetchAndReplaceESI oracle loc aid aisc url oc itb doc st).2.stats.total
        = st.stats.total + 1) ∧
      (hasParent doc aid = false →
        (fetchAndReplaceESI oracle loc aid aisc url oc itb doc st) = (doc, st)) := by
  constructor
  · intro h
    exact (fetch_counters oracle loc aid aisc url oc itb doc st h).1
  · intro h
    unfold fetchAndReplaceESI
    rw [h]
    rfl

/-- Witness for the amended C2 at concrete inputs: an attached include
bumps `total` to 1; a detached anchor leaves the state untouched. -/
theorem c2_total_increment_witness :
    (fetchAndReplaceESI anyOkOracle pageLoc 2 false "/f" none false
        (DNode.elem 0 "html" [] [DNode.elem 2 "esi:include" [("src", "/f")] []])
        freshState).2.stats.total = freshState.stats.total + 1 ∧
      fetchAndReplaceESI anyOkOracle pageLoc 9 false "/f" none false emptyDoc freshState
        = (emptyDoc, freshState) :=
  ⟨(c2_total_increment anyOkOracle pageLoc 2 false "/f" none false
      (DNode.elem 0 "html" [] [DNode.elem 2 "esi:include" [("src", "/f")] []])
      freshState).1 (by decide),
   (c2_total_increment anyOkOracle pageLoc 9 false "/f" none false emptyDoc
      freshState).2 (by decide)⟩

/-- C5: the resolver applies its rules in the stated order — (a)
`http(s)`-absolute unchanged, (b) protocol-relative prefixed with the
base scheme, (c) standard relative resolution against the base,
(d) on failure with a leading `/` the base origin is prepended,
(e) otherwise the base directory prefix is prepended — it is total (a
Lean function: never raises, always returns a string), and
`../x.html` against page `https://h/a/b/` resolves to
`https://h/a/x.html`. -/
theorem c5_resolveUrl_rules (loc : Location) (url : String) :
    (modelHttpAbs url = true → resolveUrl loc url = url) ∧
      (modelHttpAbs url = false → strStarts url "//" = true →
        resolveUrl loc url = loc.protocol ++ url) ∧
      (∀ r : String, modelHttpAbs url = false → strStarts url "//" = false →
        jsURL url loc.href = some r → resolveUrl loc url = r) ∧
      (modelHttpAbs url = false → strStarts url "//" = false →
        jsURL url loc.href = none → strStarts url "/" = true →
        resolveUrl loc url = loc.origin ++ url) ∧
      (modelHttpAbs url = false → strStarts url "//" = false →
        jsURL url loc.href = none → strStarts url "/" = false →
        resolveUrl loc url = String.mk (upToLastSlash loc.href.data) ++ url) ∧
      resolveUrl pageLoc "../x.html" = "https://h/a/x.html" := by
  refine ⟨?_, ?_, ?_, ?_, ?_, by decide⟩
  · intro h1
    simp [resolveUrl, h1]
  · intro h1 h2
    simp [resolveUrl, h1, h2]
  · intro r h1 h2 h3
    simp [resolveUrl, h1, h2, h3]
  · intro h1 h2 h3 h4
    simp [resolveUrl, h1, h2, h3, h4]
  · intro h1 h2 h3 h4
    simp [resolveUrl, h1, h2, h3, h4]

/-- A non-hierarchical base location on which the URL constructor
fails, exercising the resolver's fallback rules. -/
def opaqueLoc : Location := ⟨"about:", "null", "about:blank"⟩

/-- Witness for C5: one concrete input per rule, and the relative-path
scenario. -/
theorem c5_resolveUrl_rules_witness :
    resolveUrl pageLoc "http://z/p" = "http://z/p" ∧
      resolveUrl pageLoc "//h2/q" = "https://h2/q" ∧
      resolveUrl pageLoc "sub/p.html" = "https://h/a/b/sub/p.html" ∧
      resolveUrl opaqueLoc "/p" = "null/p" ∧
      resolveUrl opaqueLoc "p" = "p" ∧
      resolveUrl pageLoc "../x.html" = "https://h/a/x.html" :=
  ⟨(c5_resolveUrl_rules pageLoc "http://z/p").1 (by decide),
   (c5_resolveUrl_rules pageLoc "//h2/q").2.1 (by decide) (by decide),
   (c5_resolveUrl_rules pageLoc "sub/p.html").2.2.1 "https://h/a/b/sub/p.html"
     (by decide) (by decide) (by decide),
   (c5_resolveUrl_rules opaqueLoc "/p").2.2.2.1 (by decide) (by decide) (by decide) (by decide),
   (c5_resolveUrl_rules opaqueLoc "p").2.2.2.2.1 (by decide) (by decide) (by decide) (by decide),
   (c5_resolveUrl_rules pageLoc "../x.html").2.2.2.2.2⟩

/-- Oracle failing the first include and serving the second, for the
sibling-independence scenario of C3. -/
def siblingOracle : String → FetchResult := fun u =>
  if u == "https://h/f" then FetchResult.httpError 500 "Bad" else FetchResult.ok "OK"

/-- A document with two standalone includes. -/
def twoIncludeDoc : DNode :=
  DNode.elem 0 "html" []
    [DNode.elem 1 "body" []
      [DNode.elem 2 "esi:include" [("src", "/f")] [],
       DNode.elem 3 "esi:include" [("src", "/g")] []]]

/-- C3: a non-2xx fetch of an include yields a fragment with
`success = false` and error message `HTTP <status>: <statusText>`
(which contains the status code), bumps only `failed`, and replaces the
anchor in place by the inline error panel, whose markup contains the
raw source URL; the failure never escapes the boundary (the embedded
function is total and returns normally), and sibling directives are
still processed — in the closed two-include scenario the failing first
include does not stop the second from succeeding. -/
theorem c3_http_error_handling (oracle : String → FetchResult) (loc : Location)
    (aid : Nat) (url : String) (doc : DNode) (st : EngineState)
    (status : Nat) (statusText : String)
    (hp : hasParent doc aid = true)
    (ho : oracle (resolveUrl loc url) = FetchResult.httpError status statusText) :
    (fetchAndReplaceESI oracle loc aid false url none false doc st).2.stats.fragments
        = st.stats.fragments ++
          [⟨st.fragmentCounter + 1, url, resolveUrl loc url, false,
            some ("HTTP " ++ toString status ++ ": " ++ statusText), st.now⟩] ∧
      (fetchAndReplaceESI oracle loc aid false url none false doc st).2.stats.failed
        = st.stats.failed + 1 ∧
      (fetchAndReplaceESI oracle loc aid false url none false doc st).2.stats.successful
        = st.stats.successful ∧
      (fetchAndReplaceESI oracle loc aid false url none false doc st).2.stats.total
        = st.stats.total + 1 ∧
      (∃ a b : String,
        "HTTP " ++ toString status ++ ": " ++ statusText = a ++ toString status ++ b) ∧
      (fetchAndReplaceESI oracle loc aid false url none false doc st).1
        = replaceNodeById aid
            (mkErrorDiv st (st.fragmentCounter + 1) url (resolveUrl loc url)
              ("HTTP " ++ toString status ++ ": " ++ statusText)).1 doc ∧
      (∃ a b : String,
        errorPanelHtml (st.fragmentCounter + 1) url
            ("HTTP " ++ toString status ++ ": " ++ statusText)
          = a ++ url ++ b) ∧
      ((processESI siblingOracle pageLoc true twoIncludeDoc freshState).2.stats.fragments.map
          (fun f => (f.id, f.success)) = [(1, false), (2, true)] ∧
        (processESI siblingOracle pageLoc true twoIncludeDoc freshState).2.stats.total = 2) := by
  have hres : fetchAndReplaceESI oracle loc aid false url none false doc st
      = (replaceNodeById aid
           (mkErrorDiv st (st.fragmentCounter + 1) url (resolveUrl loc url)
             ("HTTP " ++ toString status ++ ": " ++ statusText)).1 doc,
         { st with
             stats := { st.stats with
               total := st.stats.total + 1,
               failed := st.stats.failed + 1,
               fragments := st.stats.fragments ++
                 [⟨st.fragmentCounter + 1, url, resolveUrl loc url, false,
                   some ("HTTP " ++ toString status ++ ": " ++ statusText), st.now⟩] },
             fragmentCounter := st.fragmentCounter + 1,
             nextNode := st.nextNode + 2 }) := by
    unfold fetchAndReplaceESI
    dsimp only
    rw [hp, ho]
    simp [replaceESIElement, hp, commentHasTryMarker, fetchErrorMessage, mkErrorDiv]
  refine ⟨?_, ?_, ?_, ?_, ?_, ?_, ?_, ?_⟩
  · rw [hres]
  · rw [hres]
  · rw [hres]
  · rw [hres]
  · exact ⟨"HTTP ", ": " ++ statusText, by simp [String.append_assoc]⟩
  · rw [hres]
  · refine ⟨"\n        <!-- ESI Fragment " ++ toString (st.fragmentCounter + 1) ++ ": ",
      " (FAILED) -->\n        <strong>ESI Error:</strong> Failed to load " ++ url ++
        "<br>\n        <small>" ++
        ("HTTP " ++ toString status ++ ": " ++ statusText) ++ "</small>\n      ", ?_⟩
    simp [errorPanelHtml, String.append_assoc]
  · exact ⟨by decide, by decide⟩

/-- Oracle answering every request 404. -/
def fail404Oracle : String → FetchResult := fun _ => FetchResult.httpError 404 "Not Found"

/-- A document with one standalone include. -/
def oneIncludeDoc : DNode :=
  DNode.elem 0 "html" [] [DNode.elem 2 "esi:include" [("src", "/f")] []]

/-- Witness for C3 at a concrete input: a 404 include records the
failed fragment with the HTTP message. -/
theorem c3_http_error_handling_witness :
    (fetchAndReplaceESI fail404Oracle pageLoc 2 false "/f" none false oneIncludeDoc
        freshState).2.stats.fragments
      = [⟨1, "/f", "https://h/f", false, some "HTTP 404: Not Found", 7⟩] := by
  have h := (c3_http_error_handling fail404Oracle pageLoc 2 "/f" oneIncludeDoc freshState
    404 "Not Found" (by decide) (by decide)).1
  rw [h]
  rfl

mutual
/-- Does a node with identity `i` occur on a path that avoids every
node with identity `t`?  (`false` means every occurrence of `i`, if
any, lies inside a subtree rooted at identity `t`.) -/
def occursAvoiding (i t : Nat) : DNode → Bool
  | DNode.elem nid _ _ cs =>
    if nid == t then false else nid == i || occursAvoidingList i t cs
  | DNode.comment nid _ => if nid == t then false else nid == i
  | DNode.textNode nid _ => if nid == t then false else nid == i
/-- `occursAvoiding` over child lists. -/
def occursAvoidingList (i t : Nat) : List DNode → Bool
  | [] => false
  | c :: cs => occursAvoiding i t c || occursAvoidingList i t cs
end

mutual
/-- Replacing every node of identity `t` by `r` erases all occurrences
of an identity `i` that occurs only inside `t`-subtrees, provided `r`
does not contain `i` and the root is not itself `t`. -/
theorem occursAvoiding_replace : ∀ (n : DNode) (i t : Nat) (r : DNode),
    occursAvoiding i t n = false → nodeOccurs i r = false → (nodeId n == t) = false →
    nodeOccurs i (replaceNodeById t r n) = false
  | DNode.elem nid tag attrs cs, i, t, r, h1, h2, h3 => by
    simp only [nodeId] at h3
    simp [occursAvoiding, h3] at h1
    simp only [replaceNodeById, nodeOccurs, Bool.or_eq_false_iff]
    refine ⟨by simp [h1.1], occursAvoidingList_replace cs i t r ?_ h2⟩
    simp [h1.2]
  | DNode.comment nid text, i, t, r, h1, h2, h3 => by
    simp only [nodeId] at h3
    simp [occursAvoiding, h3] at h1
    simp [replaceNodeById, nodeOccurs, h1]
  | DNode.textNode nid s, i, t, r, h1, h2, h3 => by
    simp only [nodeId] at h3
    simp [occursAvoiding, h3] at h1
    simp [replaceNodeById, nodeOccurs, h1]
/-- List version of `occursAvoiding_replace`. -/
theorem occursAvoidingList_replace : ∀ (cs : List DNode) (i t : Nat) (r : DNode),
    occursAvoidingList i t cs = false → nodeOccurs i r = false →
    listOccurs i (replaceInList t r cs) = false
  | [], _, _, _, _, _ => rfl
  | c :: cs, i, t, r, h1, h2 => by
    simp only [occursAvoidingList, Bool.or_eq_false_iff] at h1
    simp only [replaceInList, listOccurs, Bool.or_eq_false_iff]
    refine ⟨?_, occursAvoidingList_replace cs i t r h1.2 h2⟩
    by_cases hid : (nodeId c == t) = true
    · rw [if_pos hid]
      exact h2
    · rw [if_neg hid]
      exact occursAvoiding_replace c i t r h1.1 h2 (by simpa using hid)
end

/-- C4: an element-anchored try block whose inner include's fetch fails
records exactly one fragment (for the inner include, with
`success = false`), marks both the container and the include processed,
and the error panel replaces the whole try container, so the nested
include (and any other container content occurring only inside it) is
no longer in the tree. -/
theorem c4_try_block_failure (oracle : String → FetchResult) (loc : Location)
    (doc b inc : DNode) (src : String) (st : EngineState)
    (status : Nat) (statusText : String)
    (h1 : collectTryBlocks doc = [b])
    (h2 : findById (nodeId b) doc = some b)
    (h3 : firstIncludeDesc b = some inc)
    (h4 : getAttr inc "src" = some src)
    (h5 : (src == "") = false)
    (h6 : st.processed = [])
    (h7 : oracle (resolveUrl loc src) = FetchResult.httpError status statusText)
    (h8 : hasParent doc (nodeId b) = true)
    (h9 : occursAvoiding (nodeId inc) (nodeId b) doc = false)
    (h10 : (nodeId doc == nodeId b) = false)
    (h11 : (st.nextNode == nodeId inc) = false)
    (h12 : (st.nextNode + 1 == nodeId inc) = false) :
    (processESITryBlocks oracle loc doc st).2.stats.fragments
        = st.stats.fragments ++
          [⟨st.fragmentCounter + 1, src, resolveUrl loc src, false,
            some ("HTTP " ++ toString status ++ ": " ++ statusText), st.now⟩] ∧
      (processESITryBlocks oracle loc doc st).2.stats.failed = st.stats.failed + 1 ∧
      (processESITryBlocks oracle loc doc st).2.stats.successful = st.stats.successful ∧
      (processESITryBlocks oracle loc doc st).2.stats.total = st.stats.total + 1 ∧
      (processESITryBlocks oracle loc doc st).2.processed = [nodeId inc, nodeId b] ∧
      (processESITryBlocks oracle loc doc st).1
        = replaceNodeById (nodeId b)
            (mkErrorDiv st (st.fragmentCounter + 1) src (resolveUrl loc src)
              ("HTTP " ++ toString status ++ ": " ++ statusText)).1 doc ∧
      nodeOccurs (nodeId inc) (processESITryBlocks oracle loc doc st).1 = false := by
  have hstep : processESITryBlocks oracle loc doc st
      = fetchAndReplaceESI oracle loc (nodeId b) false src none true doc
          { st with processed := [nodeId inc, nodeId b] } := by
    unfold processESITryBlocks
    rw [h1]
    simp only [List.foldl]
    unfold tryStep
    rw [h6]
    simp only [List.contains, List.elem, h2, Option.getD, h3, h4, h5]
    simp
  have hres : fetchAndReplaceESI oracle loc (nodeId b) false src none true doc
      { st with processed := [nodeId inc, nodeId b] }
      = (replaceNodeById (nodeId b)
           (mkErrorDiv st (st.fragmentCounter + 1) src (resolveUrl loc src)
             ("HTTP " ++ toString status ++ ": " ++ statusText)).1 doc,
         { st with
             stats := { st.stats with
               total := st.stats.total + 1,
               failed := st.stats.failed + 1,
               fragments := st.stats.fragments ++
                 [⟨st.fragmentCounter + 1, src, resolveUrl loc src, false,
                   some ("HTTP " ++ toString status ++ ": " ++ statusText), st.now⟩] },
             fragmentCounter := st.fragmentCounter + 1,
             processed := [nodeId inc, nodeId b],
             nextNode := st.nextNode + 2 }) := by
    unfold fetchAndReplaceESI
    dsimp only
    rw [h8, h7]
    simp [replaceESIElement, h8, commentHasTryMarker, fetchErrorMessage, mkErrorDiv]
  have hpanel : nodeOccurs (nodeId inc)
      (mkErrorDiv st (st.fragmentCounter + 1) src (resolveUrl loc src)
        ("HTTP " ++ toString status ++ ": " ++ statusText)).1 = false := by
    simp [mkErrorDiv, nodeOccurs, listOccurs, h11, h12]
  rw [hstep, hres]
  refine ⟨rfl, rfl, rfl, rfl, rfl, rfl, ?_⟩
  exact occursAvoiding_replace doc (nodeId inc) (nodeId b) _ h9 hpanel h10

/-- The concrete try container of the C4 witness document. -/
def tryContainer : DNode :=
  DNode.elem 2 "esi:try" []
    [DNode.elem 3 "esi:attempt" [] [DNode.elem 4 "esi:include" [("src", "/x")] []],
     DNode.elem 5 "esi:except" [] [DNode.textNode 6 "fallback"]]

/-- The nested include of the C4 witness document. -/
def nestedInclude : DNode := DNode.elem 4 "esi:include" [("src", "/x")] []

/-- The C4 witness document: one element-anchored try block. -/
def tryDoc : DNode :=
  DNode.elem 0 "html" [] [DNode.elem 1 "body" [] [tryContainer]]

/-- Witness for C4 at a concrete input: the failing try block records
one failed fragment and the nested include is gone from the tree. -/
theorem c4_try_block_failure_witness :
    (processESITryBlocks fail404Oracle pageLoc tryDoc freshState).2.stats.fragments
        = [⟨1, "/x", "https://h/x", false, some "HTTP 404: Not Found", 7⟩] ∧
      (processESITryBlocks fail404Oracle pageLoc tryDoc freshState).2.processed = [4, 2] ∧
      nodeOccurs 4 (processESITryBlocks fail404Oracle pageLoc tryDoc freshState).1 = false ∧
      nodeOccurs 2 (processESITryBlocks fail404Oracle pageLoc tryDoc freshState).1 = false := by
  have h := c4_try_block_failure fail404Oracle pageLoc tryDoc tryContainer nestedInclude
    "/x" freshState 404 "Not Found" (by rfl) (by rfl) (by rfl) (by rfl) (by decide)
    (by rfl) (by decide) (by decide) (by decide) (by decide) (by decide) (by decide)
  refine ⟨?_, ?_, ?_, ?_⟩
  · rw [h.1]; rfl
  · rw [h.2.2.2.2.1]; rfl
  · exact h.2.2.2.2.2.2
  · rw [h.2.2.2.2.2.1]; decide

/-- `takeWhile`/`dropWhile` split at the first element refuting the
predicate. -/
theorem takeWhile_split {α : Type} (p : α → Bool) : ∀ (pre rest : List α) (x : α),
    pre.all p = true → p x = false →
    ((pre ++ x :: rest).takeWhile p = pre ∧ (pre ++ x :: rest).dropWhile p = x :: rest)
  | [], rest, x, _, hx => by simp [List.takeWhile, List.dropWhile, hx]
  | a :: pre, rest, x, hall, hx => by
    simp only [List.all_cons, Bool.and_eq_true] at hall
    have ih := takeWhile_split p pre rest x hall.2 hx
    simp [List.takeWhile_cons, List.dropWhile_cons, hall.1, ih.1, ih.2]

/-- `listOccurs` distributes over append. -/
theorem listOccurs_append (i : Nat) : ∀ (l1 l2 : List DNode),
    listOccurs i (l1 ++ l2) = (listOccurs i l1 || listOccurs i l2)
  | [], l2 => by simp [listOccurs]
  | c :: l1, l2 => by
    simp [listOccurs, listOccurs_append i l1 l2, Bool.or_assoc]

mutual
/-- Replacing an identity that does not occur leaves the tree
unchanged. -/
theorem replace_not_occurs : ∀ (n : DNode) (t : Nat) (r : DNode),
    nodeOccurs t n = false → replaceNodeById t r n = n
  | DNode.elem nid tag attrs cs, t, r, h => by
    simp only [nodeOccurs, Bool.or_eq_false_iff] at h
    simp only [replaceNodeById]
    rw [replaceInList_not_occurs cs t r h.2]
  | DNode.comment nid text, t, r, _ => rfl
  | DNode.textNode nid s, t, r, _ => rfl
/-- List version of `replace_not_occurs`. -/
theorem replaceInList_not_occurs : ∀ (cs : List DNode) (t : Nat) (r : DNode),
    listOccurs t cs = false → replaceInList t r cs = cs
  | [], _, _, _ => rfl
  | c :: cs, t, r, h => by
    simp only [listOccurs, Bool.or_eq_false_iff] at h
    have hhead : (nodeId c == t) = false := by
      cases c with
      | elem nid tag attrs cs2 =>
        simp only [nodeOccurs, Bool.or_eq_false_iff] at h
        simpa [nodeId] using h.1.1
      | comment nid text => simpa [nodeOccurs, nodeId] using h.1
      | textNode nid s => simpa [nodeOccurs, nodeId] using h.1
    simp only [replaceInList, hhead, if_neg, Bool.false_eq_true, if_false]
    rw [replace_not_occurs c t r h.1, replaceInList_not_occurs cs t r h.2]
end

/-- `replaceInList` rewrites exactly the marked top-level node when the
identity occurs nowhere else in the list. -/
theorem replaceInList_split : ∀ (pre post : List DNode) (x : DNode) (t : Nat) (r : DNode),
    listOccurs t pre = false → listOccurs t post = false → (nodeId x == t) = true →
    replaceInList t r (pre ++ x :: post) = pre ++ r :: post
  | [], post, x, t, r, _, hpost, hx => by
    simp only [List.nil_append, replaceInList, hx, if_pos]
    rw [replaceInList_not_occurs post t r hpost]
  | c :: pre, post, x, t, r, hpre, hpost, hx => by
    simp only [listOccurs, Bool.or_eq_false_iff] at hpre
    have hhead : (nodeId c == t) = false := by
      cases c with
      | elem nid tag attrs cs2 =>
        simp only [nodeOccurs, Bool.or_eq_false_iff] at hpre
        simpa [nodeId] using hpre.1.1
      | comment nid text => simpa [nodeOccurs, nodeId] using hpre.1
      | textNode nid s => simpa [nodeOccurs, nodeId] using hpre.1
    simp only [List.cons_append, replaceInList, hhead, Bool.false_eq_true, if_false]
    rw [replace_not_occurs c t r hpre.1]
    exact congrArg (c :: .) (replaceInList_split pre post x t r hpre.2 hpost hx)

/-- C8: for a comment-anchored try block the surgeon forward-scans
comments for the nearest one containing `</esi:try>`; when found (here
as a sibling of the opening comment, the configuration the comment
syntax produces), every node from the opening comment through the
closing comment, both inclusive, is removed and the result node takes
their place; when no closing marker exists, only the opening comment is
replaced. -/
theorem c8_comment_try_replacement :
    (∀ (rid : Nat) (rtag : String) (rattrs : List (String × String))
        (pre mid post : List DNode) (sid : Nat) (stext : String) (eid : Nat)
        (etext : String) (r : DNode),
      findClosingComment
          (DNode.elem rid rtag rattrs
            (pre ++ DNode.comment sid stext :: (mid ++ DNode.comment eid etext :: post)))
          sid = some eid →
      pre.all (fun n => nodeId n != sid) = true →
      (DNode.comment sid stext :: mid).all (fun n => nodeId n != eid) = true →
      replaceCommentTryBlock
          (DNode.elem rid rtag rattrs
            (pre ++ DNode.comment sid stext :: (mid ++ DNode.comment eid etext :: post)))
          sid r
        = DNode.elem rid rtag rattrs (pre ++ r :: post)) ∧
    (∀ (rid : Nat) (rtag : String) (rattrs : List (String × String))
        (pre post : List DNode) (sid : Nat) (stext : String) (r : DNode),
      findClosingComment
          (DNode.elem rid rtag rattrs (pre ++ DNode.comment sid stext :: post)) sid = none →
      listOccurs sid pre = false → listOccurs sid post = false →
      replaceCommentTryBlock
          (DNode.elem rid rtag rattrs (pre ++ DNode.comment sid stext :: post)) sid r
        = DNode.elem rid rtag rattrs (pre ++ r :: post)) := by
  constructor
  · intro rid rtag rattrs pre mid post sid stext eid etext r hfind hpre hmid
    unfold replaceCommentTryBlock
    rw [hfind]
    have hc1 : (childIds
        (pre ++ DNode.comment sid stext :: (mid ++ DNode.comment eid etext :: post))).contains
          sid = true := by
      simp [childIds, nodeId, List.contains]
    have hc2 : (childIds
        (pre ++ DNode.comment sid stext :: (mid ++ DNode.comment eid etext :: post))).contains
          eid = true := by
      simp [childIds, nodeId, List.contains]
    have hsib : areSiblingNodes sid eid
        (DNode.elem rid rtag rattrs
          (pre ++ DNode.comment sid stext :: (mid ++ DNode.comment eid etext :: post)))
        = true := by
      unfold areSiblingNodes
      rw [hc1, hc2]
      simp
    dsimp only
    rw [hsib]
    simp only [if_pos]
    unfold rangeReplace
    rw [hc1, hc2]
    simp only [Bool.and_self, if_pos]
    unfold replaceRangeInChildren
    have hx1 : ((fun n => nodeId n != sid) (DNode.comment sid stext)) = false := by
      simp [nodeId]
    have hs1 := takeWhile_split (fun n => nodeId n != sid) pre
      (mid ++ DNode.comment eid etext :: post) (DNode.comment sid stext) hpre hx1
    rw [hs1.1, hs1.2]
    have hx2 : ((fun n => nodeId n != eid) (DNode.comment eid etext)) = false := by
      simp [nodeId]
    have hre : DNode.comment sid stext :: (mid ++ DNode.comment eid etext :: post)
        = (DNode.comment sid stext :: mid) ++ DNode.comment eid etext :: post := by
      simp
    rw [hre]
    have hs2 := takeWhile_split (fun n => nodeId n != eid) (DNode.comment sid stext :: mid)
      post (DNode.comment eid etext) hmid hx2
    dsimp only
    rw [hs2.2]
    simp
  · intro rid rtag rattrs pre post sid stext r hfind hpre hpost
    unfold replaceCommentTryBlock
    rw [hfind]
    dsimp only
    have hpar : hasParent
        (DNode.elem rid rtag rattrs (pre ++ DNode.comment sid stext :: post)) sid = true := by
      simp [hasParent, listOccurs_append, listOccurs, nodeOccurs]
    rw [hpar]
    simp only [if_pos, replaceNodeById]
    rw [replaceInList_split pre post (DNode.comment sid stext) sid r hpre hpost
      (by simp [nodeId])]

/-- Witness for C8 at concrete inputs: a sibling marker pair is excised
with everything between, and a markerless opening comment is replaced
alone. -/
theorem c8_comment_try_replacement_witness :
    replaceCommentTryBlock
        (DNode.elem 1 "body" []
          [DNode.textNode 7 "x", DNode.comment 2 "<esi:try>", DNode.elem 8 "p" [] [],
           DNode.comment 9 "mid", DNode.comment 4 "</esi:try>", DNode.textNode 10 "y"])
        2 (DNode.elem 50 "div" [] [])
      = DNode.elem 1 "body" []
          [DNode.textNode 7 "x", DNode.elem 50 "div" [] [], DNode.textNode 10 "y"] ∧
    replaceCommentTryBlock
        (DNode.elem 1 "body" []
          [DNode.textNode 7 "x", DNode.comment 2 "<esi:try> unclosed", DNode.textNode 10 "y"])
        2 (DNode.elem 50 "div" [] [])
      = DNode.elem 1 "body" []
          [DNode.textNode 7 "x", DNode.elem 50 "div" [] [], DNode.textNode 10 "y"] :=
  ⟨c8_comment_try_replacement.1 1 "body" [] [DNode.textNode 7 "x"]
      [DNode.elem 8 "p" [] [], DNode.comment 9 "mid"] [DNode.textNode 10 "y"]
      2 "<esi:try>" 4 "</esi:try>" (DNode.elem 50 "div" [] [])
      (by rfl) (by decide) (by decide),
   c8_comment_try_replacement.2 1 "body" [] [DNode.textNode 7 "x"] [DNode.textNode 10 "y"]
      2 "<esi:try> unclosed" (DNode.elem 50 "div" [] [])
      (by rfl) (by decide) (by decide)⟩

/-- C9 counterexample: a failing external script aborts the remaining
deferred scripts — the rejected promise propagates out of the awaiting
loop (the `try/catch` of `executeScript` guards only the synchronous
set-up), so the following inline script never runs, contrary to the
claim that an individual failure does not abort the rest. -/
theorem c9_counterexample :
    runDeferredScripts [ScriptEl.external "u" false, ScriptEl.inlineScript "c"]
        = [ScriptEl.external "u" false] ∧
      ¬(runDeferredScripts [ScriptEl.external "u" false, ScriptEl.inlineScript "c"]
          = [ScriptEl.external "u" false, ScriptEl.inlineScript "c"]) := by
  refine ⟨rfl, by decide⟩

/-- C9 amended: deferred scripts run sequentially in list order; when
no external script fails to load, every script runs, in order; a
failing external script is itself appended but ends the loop, so
exactly the clean prefix plus that script runs; and a fragment's
recorded success status is decided by the fetch outcome alone —
a 2xx fetch records `success = true` no matter what the deferred
scripts later do. -/
theorem c9_script_execution (l : List ScriptEl) :
    ((∀ s ∈ l, scriptAborts s = false) → runDeferredScripts l = l) ∧
      runDeferredScripts l <+: l ∧
      (∀ (pre post : List ScriptEl) (s : ScriptEl),
        l = pre ++ s :: post → (∀ x ∈ pre, scriptAborts x = false) →
        scriptAborts s = true → runDeferredScripts l = pre ++ [s]) ∧
      (∀ (oracle : String → FetchResult) (loc : Location) (aid : Nat) (aisc : Bool)
          (url : String) (oc : Option String) (itb : Bool) (doc : DNode)
          (st : EngineState) (content : String),
        hasParent doc aid = true → oracle (resolveUrl loc url) = FetchResult.ok content →
        (fetchAndReplaceESI oracle loc aid aisc url oc itb doc st).2.stats.fragments
          = st.stats.fragments ++
            [⟨st.fragmentCounter + 1, url, resolveUrl loc url, true, none, st.now⟩]) := by
  refine ⟨?_, ?_, ?_, ?_⟩
  · intro hall
    induction l with
    | nil => rfl
    | cons s rest ih =>
      have hs := hall s (by simp)
      simp only [runDeferredScripts, hs, Bool.false_eq_true, if_false]
      rw [ih (fun x hx => hall x (by simp [hx]))]
  · induction l with
    | nil => exact List.prefix_rfl
    | cons s rest ih =>
      by_cases hs : scriptAborts s = true
      · simp only [runDeferredScripts, hs, if_pos]
        exact ⟨rest, rfl⟩
      · simp only [runDeferredScripts, hs, if_neg]
        exact List.cons_prefix_cons.mpr ⟨rfl, ih⟩
  · intro pre post s hl hpre hs
    subst hl
    induction pre with
    | nil =>
      simp only [List.nil_append, runDeferredScripts, hs, if_pos]
    | cons a pre ih =>
      have ha := hpre a (by simp)
      simp only [List.cons_append, runDeferredScripts, ha, Bool.false_eq_true, if_false]
      exact congrArg (a :: .) (ih (fun x hx => hpre x (by simp [hx])))
  · intro oracle loc aid aisc url oc itb doc st content hp ho
    unfold fetchAndReplaceESI
    dsimp only
    rw [hp, ho]
    simp [mkContainer]

/-- Witness for the amended C9 at concrete inputs. -/
theorem c9_script_execution_witness :
    runDeferredScripts [ScriptEl.inlineScript "a", ScriptEl.external "b" true]
        = [ScriptEl.inlineScript "a", ScriptEl.external "b" true] ∧
      runDeferredScripts
          [ScriptEl.inlineScript "a", ScriptEl.external "u" false, ScriptEl.inlineScript "c"]
        = [ScriptEl.inlineScript "a", ScriptEl.external "u" false] ∧
      (fetchAndReplaceESI anyOkOracle pageLoc 2 false "/f" none false oneIncludeDoc
          freshState).2.stats.fragments
        = [⟨1, "/f", "https://h/f", true, none, 7⟩] :=
  ⟨(c9_script_execution [ScriptEl.inlineScript "a", ScriptEl.external "b" true]).1 (by decide),
   (c9_script_execution
       [ScriptEl.inlineScript "a", ScriptEl.external "u" false, ScriptEl.inlineScript "c"]).2.2.1
     [ScriptEl.inlineScript "a"] [ScriptEl.inlineScript "c"] (ScriptEl.external "u" false)
     rfl (by decide) (by decide),
   (c9_script_execution []).2.2.2 anyOkOracle pageLoc 2 false "/f" none false oneIncludeDoc
     freshState "AA" (by decide) (by decide)⟩

/-- C10: a comment whose text contains `<esi:try>` but matches no
quoted-`src` include tag is marked processed by the comment phase, yet
no fetch is issued: the statistics, the fragment history and the
document are all left exactly as they were. -/
theorem c10_try_comment_without_include (oracle : String → FetchResult) (loc : Location)
    (doc : DNode) (st : EngineState) (cid : Nat) (text : String)
    (h1 : strIncludes text "<esi:try>" = true)
    (h2 : matchIncludeSrc text = none) :
    (∀ st2 : EngineState, processESIComment oracle loc doc st2 cid text = (doc, st2)) ∧
      (collectESIComments doc st.processed = [(cid, text)] →
        processESIComments oracle loc doc st
          = (doc, { st with processed := cid :: st.processed })) := by
  have hgen : ∀ st2 : EngineState, processESIComment oracle loc doc st2 cid text = (doc, st2) := by
    intro st2
    unfold processESIComment
    rw [h1, h2]
    simp
  refine ⟨hgen, ?_⟩
  intro hc
  have hmem : (cid, text) ∈ collectESIComments doc st.processed := by
    rw [hc]
    exact List.mem_singleton.mpr rfl
  have hnc : st.processed.contains cid = false := by
    unfold collectESIComments at hmem
    have hf := (List.mem_filter.mp hmem).2
    simp only [Bool.and_eq_true, Bool.not_eq_eq_eq_not, Bool.not_true] at hf
    exact hf.1
  unfold processESIComments
  rw [hc]
  simp only [List.foldl]
  unfold commentStep
  simp only [hnc, Bool.false_eq_true, if_false]
  exact hgen _

/-- The C10 witness document: a single try-marker comment with no
include tag inside. -/
def bareTryCommentDoc : DNode :=
  DNode.elem 0 "html" [] [DNode.elem 1 "body" [] [DNode.comment 2 "<esi:try> hello"]]

/-- Witness for C10 at a concrete input. -/
theorem c10_try_comment_without_include_witness :
    processESIComment anyOkOracle pageLoc bareTryCommentDoc freshState 2 "<esi:try> hello"
        = (bareTryCommentDoc, freshState) ∧
      processESIComments anyOkOracle pageLoc bareTryCommentDoc freshState
        = (bareTryCommentDoc, { freshState with processed := [2] }) := by
  have h := c10_try_comment_without_include anyOkOracle pageLoc bareTryCommentDoc freshState
    2 "<esi:try> hello" (by decide) (by decide)
  exact ⟨h.1 freshState, h.2 (by rfl)⟩
